import Mathlib

set_option maxRecDepth 8000

/-!
A shallow embedding of the goldi dependency-injection core: the function
factory (`NewType` and its generation pipeline), the baseline validation
constraint, and the alias factory. Go reflection data (kinds, types,
values) is embedded as explicit inductive descriptors; machine behaviour
that the repository files do not contain (the invalid-type record, the
alias factory, the raw-argument classifier) is modelled from the spec and
marked as such on the definition.
-/

namespace Goldi

/-- The subset of reflect.Kind that the embedded code inspects. -/
inductive Kind where
  | kFunc
  | kPtr
  | kInterface
  | kString
  | kInt
  | kBool
  | kSlice
  | kStruct
  deriving DecidableEq, Repr

/-- reflect.Kind.String() for the kinds above. -/
def Kind.kindString : Kind → String
  | .kFunc => "func"
  | .kPtr => "ptr"
  | .kInterface => "interface"
  | .kString => "string"
  | .kInt => "int"
  | .kBool => "bool"
  | .kSlice => "slice"
  | .kStruct => "struct"

/-- A Go type descriptor (reflect.Type) restricted to the shapes the
embedded code distinguishes. -/
inductive TypeRepr where
  | ptrTo : String → TypeRepr
  | ifaceOf : String → TypeRepr
  | strT : TypeRepr
  | intT : TypeRepr
  | boolT : TypeRepr
  | sliceOf : TypeRepr → TypeRepr
  | funcT : TypeRepr
  deriving DecidableEq, Repr

/-- reflect.Type.Kind(). -/
def TypeRepr.kind : TypeRepr → Kind
  | .ptrTo _ => .kPtr
  | .ifaceOf _ => .kInterface
  | .strT => .kString
  | .intT => .kInt
  | .boolT => .kBool
  | .sliceOf _ => .kSlice
  | .funcT => .kFunc

/-- reflect.Type.Elem(); the code only calls it on the variadic slice
parameter, so non-slice types are mapped to themselves. -/
def TypeRepr.elem : TypeRepr → TypeRepr
  | .sliceOf e => e
  | t => t

/-- reflect.Type.String(). -/
def TypeRepr.str : TypeRepr → String
  | .ptrTo n => "*" ++ n
  | .ifaceOf n => n
  | .strT => "string"
  | .intT => "int"
  | .boolT => "bool"
  | .sliceOf e => "[]" ++ e.str
  | .funcT => "func()"

/-- The reflect.Type of a Go function: its parameter types (the variadic
slice, when present, is the last entry, exactly as reflect counts it in
NumIn), its return types, and the variadic flag. -/
structure FuncType where
  inTypes : List TypeRepr
  outTypes : List TypeRepr
  variadic : Bool
  deriving DecidableEq, Repr

/-- reflect.Type.NumIn(). -/
def FuncType.NumIn (t : FuncType) : Nat := t.inTypes.length

/-- reflect.Type.NumOut(). -/
def FuncType.NumOut (t : FuncType) : Nat := t.outTypes.length

/-- reflect.Type.In(i); the code only calls it in range. -/
def FuncType.In (t : FuncType) (i : Nat) : TypeRepr := t.inTypes.getD i .strT

/-- A Go interface value: the literals that appear as raw factory
arguments, function values, and the instances the tests exercise. A slice
value is encoded structurally by the cells `vsnil`/`vselem` (head and
remaining slice); a call result is kept symbolic as `vcall` of the factory
name and the packed argument slice. -/
inductive Value where
  | vstr : String → Value
  | vint : Int → Value
  | vbool : Bool → Value
  | vfunc : String → FuncType → Value
  | vmock : String → Value
  | vbound : Value → String → Value
  | vsnil : Value
  | vselem : Value → Value → Value
  | vcall : String → Value → Value
  | vnil : Value
  deriving DecidableEq, Repr

/-- The slice value holding the given elements in order (reflect.MakeSlice
followed by the element-wise Set calls). -/
def Value.packSlice : List Value → Value
  | [] => .vsnil
  | v :: rest => .vselem v (Value.packSlice rest)

/-- reflect.ValueOf(v).Kind(). -/
def Value.kind : Value → Kind
  | .vstr _ => .kString
  | .vint _ => .kInt
  | .vbool _ => .kBool
  | .vfunc _ _ => .kFunc
  | .vmock _ => .kStruct
  | .vbound _ _ => .kFunc
  | .vsnil => .kSlice
  | .vselem _ _ => .kSlice
  | .vcall _ _ => .kPtr
  | .vnil => .kInterface

/-- The %T rendering of a value, as fmt prints it. -/
def Value.goTypeString : Value → String
  | .vstr _ => "string"
  | .vint _ => "int"
  | .vbool _ => "bool"
  | .vfunc _ _ => "func"
  | .vmock _ => "*tests.MockType"
  | .vbound _ _ => "func(string) string"
  | .vsnil => "[]interface"
  | .vselem _ _ => "[]interface"
  | .vcall _ _ => "*instance"
  | .vnil => "<nil>"

/-- Whether the last character of the list is the given one. -/
def lastCharIs : List Char → Char → Bool
  | [], _ => false
  | [c], x => c = x
  | _ :: rest, x => lastCharIs rest x

/-- Modelled from the spec: goldi.IsParameterOrTypeReference is not among
the source files; per the raw-argument syntax of the spec, a configuration
parameter is written between percent signs and a type reference starts
with an at sign. -/
def IsParameterOrTypeReference (s : String) : Bool :=
  match s.data with
  | [] => false
  | c :: rest => c = '@' || (c = '%' && lastCharIs rest '%')

/-- The data of a valid function factory: the factory function (kept as
its runtime name), its reflect.Type, and the stored call arguments. -/
structure TypeFactoryData where
  fname : String
  factoryType : FuncType
  factoryArguments : List Value
  deriving DecidableEq, Repr

/-- A TypeFactory: either a valid function factory or an invalid factory
recording its construction error. The invalid variant is modelled from
the spec (invalid_type.go is not among the source files): it permanently
records one construction error. -/
inductive TypeFactory where
  | mk : TypeFactoryData → TypeFactory
  | invalidType : String → TypeFactory
  deriving DecidableEq, Repr

/-- Modelled from the spec: newInvalidType wraps a construction error in a
permanently invalid factory. -/
def newInvalidType (err : String) : TypeFactory := .invalidType err

/-- Modelled from the spec: goldi.IsValid (not among the source files)
reports whether a factory carries no recorded construction error. -/
def IsValid : TypeFactory → Bool
  | .mk _ => true
  | .invalidType _ => false

/-- The expected type of argument i in buildFactoryCallArguments: the
variadic element type for the trailing arguments of a variadic function,
the positional parameter type otherwise. -/
def expectedArgType (t : FuncType) (i : Nat) : TypeRepr :=
  if t.variadic = true ∧ t.NumIn - 1 ≤ i then (t.In (t.NumIn - 1)).elem
  else t.In i

/-- The eager per-argument rejection condition of buildFactoryCallArguments:
the argument kind differs from the expected kind, and the argument is a
string that is neither a configuration parameter nor a type reference. -/
def eagerArgFail (t : FuncType) (i : Nat) (argument : Value) : Bool :=
  decide (argument.kind ≠ (expectedArgType t i).kind) &&
    (match argument with
     | .vstr s => !IsParameterOrTypeReference s
     | _ => false)

/-- The loop of buildFactoryCallArguments, carried at starting index i.
reflect.ValueOf is the identity in this embedding, so the stored argument
list equals the parameter list on success. -/
def buildFactoryCallArgumentsAux (t : FuncType) : Nat → List Value → Except String (List Value)
  | _, [] => .ok []
  | i, argument :: rest =>
    if eagerArgFail t i argument then
      .error ("input argument " ++ toString (i + 1) ++ " is of type " ++
        argument.kind.kindString ++ " but needs to be a " ++
        (expectedArgType t i).kind.kindString)
    else
      (buildFactoryCallArgumentsAux t (i + 1) rest).map (argument :: ·)

/-- buildFactoryCallArguments from the source. -/
def buildFactoryCallArguments (t : FuncType) (allParameters : List Value) :
    Except String (List Value) :=
  buildFactoryCallArgumentsAux t 0 allParameters

/-- newTypeFromFactoryFunction from the source: return-count check, return
kind check, arity check (at-least for variadic, exact otherwise), then the
eager argument check. -/
def newTypeFromFactoryFunction (fname : String) (factoryType : FuncType)
    (parameters : List Value) : TypeFactory :=
  if factoryType.NumOut ≠ 1 then
    newInvalidType ("invalid number of return parameters: " ++ toString factoryType.NumOut)
  else if (factoryType.outTypes.getD 0 .strT).kind ≠ .kInterface ∧
      (factoryType.outTypes.getD 0 .strT).kind ≠ .kPtr then
    newInvalidType ("return parameter is no interface or pointer but a " ++
      (factoryType.outTypes.getD 0 .strT).kind.kindString)
  else if factoryType.variadic = true ∧ parameters.length < factoryType.NumIn then
    newInvalidType ("invalid number of input parameters for variadic function: got " ++
      toString parameters.length ++ " but expected at least " ++ toString factoryType.NumIn)
  else if factoryType.variadic = false ∧ factoryType.NumIn ≠ parameters.length then
    newInvalidType ("invalid number of input parameters: got " ++
      toString parameters.length ++ " but expected " ++ toString factoryType.NumIn)
  else
    match buildFactoryCallArguments factoryType parameters with
    | .error e => newInvalidType e
    | .ok args => .mk ⟨fname, factoryType, args⟩

/-- NewType from the source: a non-function value is rejected immediately,
a function is handed to newTypeFromFactoryFunction. -/
def NewType (factoryFunction : Value) (factoryParameters : List Value) : TypeFactory :=
  match factoryFunction with
  | .vfunc fname factoryType => newTypeFromFactoryFunction fname factoryType factoryParameters
  | v => newInvalidType ("the given factoryFunction must be a function (given \"" ++
      v.kind.kindString ++ "\")")

/-- typeFactory.Arguments() from the source; reflect.Value.Interface() is
the identity in this embedding. -/
def TypeFactoryData.Arguments (t : TypeFactoryData) : List Value :=
  t.factoryArguments

/-- Decidable equality on Except, needed to evaluate generation results on
concrete inputs. -/
instance instDecEqExcept {ε α : Type} [DecidableEq ε] [DecidableEq α] :
    DecidableEq (Except ε α) := fun a b =>
  match a, b with
  | .ok x, .ok y =>
    if h : x = y then .isTrue (congrArg Except.ok h)
    else .isFalse (fun he => h (Except.ok.inj he))
  | .error x, .error y =>
    if h : x = y then .isTrue (congrArg Except.error h)
    else .isFalse (fun he => h (Except.error.inj he))
  | .ok _, .error _ => .isFalse (fun he => Except.noConfusion he)
  | .error _, .ok _ => .isFalse (fun he => Except.noConfusion he)

/-- The errors a ParameterResolver.Resolve call can report to the factory:
a TypeReferenceError carrying the offending TypeID and whatever instance
was obtained, or any other resolution error rendered as text. -/
inductive ResolveErr where
  | typeReferenceError : String → Value → ResolveErr
  | otherError : String → ResolveErr
  deriving DecidableEq, Repr

/-- The interface of ParameterResolver.Resolve as the factory uses it
(parameter_resolver.go is not among the source files, so the resolver is
kept abstract): one raw argument and one expected type give an instance or
a resolution error. -/
abbrev Resolver : Type := Value → TypeRepr → Except ResolveErr Value

/-- The characters of a string after its last slash (strings.Split on the
slash followed by taking the last part). -/
def takeUntilSlash : List Char → List Char
  | [] => []
  | c :: rest => if c = '/' then [] else c :: takeUntilSlash rest

/-- The trailing path component of a runtime function name. -/
def lastSlashPart (s : String) : String :=
  String.mk (takeUntilSlash s.data.reverse).reverse

/-- strings.Join with a comma separator. -/
def joinComma : List String → String
  | [] => ""
  | [x] => x
  | x :: rest => x ++ ", " ++ joinComma rest

/-- typeFactory.invalidReferencedTypeErr from the source: the enriched
message built from the trimmed factory name, the referenced TypeID, the %T
of the obtained instance, the 1-based argument position and the factory
signature. -/
def invalidReferencedTypeErr (t : TypeFactoryData) (typeID : String)
    (typeInstance : Value) (i : Nat) : String :=
  "the referenced type \"" ++ ("@" ++ typeID) ++ "\" (type " ++
    typeInstance.goTypeString ++ ") can not be passed as argument " ++
    toString (i + 1) ++ " to the function signature " ++ lastSlashPart t.fname ++
    "(" ++ joinComma (t.factoryType.inTypes.map TypeRepr.str) ++ ")"

/-- The fixed-argument resolution loop shared by generateFactoryArguments
and the fixed prefix of generateVariadicFactoryArguments, carried at
starting index i: each argument resolves against its positional parameter
type; a TypeReferenceError is enriched with the argument index, any other
error is returned as is. -/
def resolveFixedLoop (t : TypeFactoryData) (r : Resolver) :
    Nat → List Value → Except String (List Value)
  | _, [] => .ok []
  | i, argument :: rest =>
    match r argument (t.factoryType.In i) with
    | .ok v => (resolveFixedLoop t r (i + 1) rest).map (v :: ·)
    | .error (.typeReferenceError typeID inst) =>
      .error (invalidReferencedTypeErr t typeID inst i)
    | .error (.otherError e) => .error e

/-- The variadic-tail resolution loop of generateVariadicFactoryArguments,
carried at starting index i relative to the tail (the source enriches a
tail TypeReferenceError with this relative index): each trailing argument
resolves against the variadic element type. -/
def resolveTailLoop (t : TypeFactoryData) (r : Resolver) (expectedType : TypeRepr) :
    Nat → List Value → Except String (List Value)
  | _, [] => .ok []
  | i, argument :: rest =>
    match r argument expectedType with
    | .ok v => (resolveTailLoop t r expectedType (i + 1) rest).map (v :: ·)
    | .error (.typeReferenceError typeID inst) =>
      .error (invalidReferencedTypeErr t typeID inst i)
    | .error (.otherError e) => .error e

/-- generateVariadicFactoryArguments from the source: the first NumIn - 1
stored arguments resolve positionally, the remaining arguments resolve
against the variadic element type and are packed, in order, into one slice
placed last. -/
def generateVariadicFactoryArguments (t : TypeFactoryData) (r : Resolver) :
    Except String (List Value) :=
  let actualNumberOfArgs := t.factoryType.NumIn
  match resolveFixedLoop t r 0 (t.factoryArguments.take (actualNumberOfArgs - 1)) with
  | .error e => .error e
  | .ok fixedArgs =>
    let variadicType := t.factoryType.In (actualNumberOfArgs - 1)
    match resolveTailLoop t r variadicType.elem 0
        (t.factoryArguments.drop (actualNumberOfArgs - 1)) with
    | .error e => .error e
    | .ok tailArgs => .ok (fixedArgs ++ [Value.packSlice tailArgs])

/-- generateFactoryArguments from the source. -/
def generateFactoryArguments (t : TypeFactoryData) (r : Resolver) :
    Except String (List Value) :=
  if t.factoryType.variadic then generateVariadicFactoryArguments t r
  else resolveFixedLoop t r 0 t.factoryArguments

/-- typeFactory.Generate from the source: resolve the arguments, then call
the factory (Call or CallSlice, both kept symbolic as `vcall` on the
packed argument slice) and return its single result. The invalidType
branch is modelled from the spec: an invalid TypeFactory always fails
generation with its recorded construction error. -/
def TypeFactory.Generate (f : TypeFactory) (r : Resolver) : Except String Value :=
  match f with
  | .invalidType e => .error e
  | .mk t =>
    match generateFactoryArguments t r with
    | .error e => .error e
    | .ok args => .ok (.vcall t.fname (Value.packSlice args))

/-- The recorded construction error of a factory: the error value the
validation constraint reads off an invalid factory (the type assertion to
error in the source; never reached for a valid factory). -/
def recordedErr : TypeFactory → String
  | .invalidType e => e
  | .mk _ => ""

/-- NoInvalidTypesConstraint.Validate from the source, over the registry
content in one concrete iteration order (Go iterates the registry map in
an unspecified order; the list order stands for the order the loop sees):
the first invalid factory fails validation with its TypeID and recorded
error. -/
def validateNoInvalidTypes : List (String × TypeFactory) → Option String
  | [] => none
  | (typeID, f) :: rest =>
    if IsValid f = false then
      some ("type \"" ++ typeID ++ "\" is invalid: " ++ recordedErr f)
    else validateNoInvalidTypes rest

/-- The characters of an alias target before a double-colon member
suffix. -/
def splitMemberChars : List Char → List Char × Option (List Char)
  | [] => ([], none)
  | ':' :: ':' :: rest => ([], some rest)
  | c :: rest =>
    let p := splitMemberChars rest
    (c :: p.1, p.2)

/-- An alias target id split at the member suffix. -/
def splitMember (s : String) : String × Option String :=
  let p := splitMemberChars s.data
  (String.mk p.1, p.2.map String.mk)

/-- Modelled from the spec: the AliasType implementation (alias_type.go is
not among the source files, only its test): it stores the target id as
given to NewAliasType. -/
structure AliasType where
  typeID : String
  deriving DecidableEq, Repr

/-- Modelled from the spec: NewAliasType. -/
def NewAliasType (typeID : String) : AliasType := ⟨typeID⟩

/-- Modelled from the spec: an alias factory declares exactly one raw
argument, the at-prefixed target id. -/
def AliasType.Arguments (a : AliasType) : List Value := [.vstr ("@" ++ a.typeID)]

/-- Modelled from the spec: alias generation. Without a member suffix it
forwards verbatim to container retrieval of the target id; with a member
suffix it fetches the target instance and returns a callable closing over
that instance and the member name. Container retrieval is passed in as a
lookup because the Container implementation is not among the source
files. -/
def AliasType.Generate (a : AliasType) (get : String → Option Value) :
    Except String Value :=
  match splitMember a.typeID with
  | (id, none) =>
    match get id with
    | some v => .ok v
    | none => .error ("unknown type \"" ++ id ++ "\"")
  | (id, some member) =>
    match get id with
    | some v => .ok (.vbound v member)
    | none => .error ("unknown type \"" ++ id ++ "\"")

/-- Modelled from the spec: invoking a callable bound to a mock instance
whose ReturnString member concatenates the instance state and the given
argument with a blank between them (tests.MockType in the alias test). -/
def invokeBound (callable : Value) (arg : Value) : Option Value :=
  match callable, arg with
  | .vbound (.vmock state) member, .vstr s =>
    if member = "ReturnString" then some (.vstr (state ++ " " ++ s)) else none
  | _, _ => none

/-- The resolver resolves the given arguments, positionally from index i,
to exactly the given results: the success assumption under which the
fixed-argument loop is characterised. -/
def ResolvesFrom (t : TypeFactoryData) (r : Resolver) : Nat → List Value → List Value → Prop
  | _, [], [] => True
  | i, a :: as, v :: vs =>
    r a (t.factoryType.In i) = .ok v ∧ ResolvesFrom t r (i + 1) as vs
  | _, _, _ => False

/-! Helper lemmas. -/

theorem except_map_eq_ok {ε α β : Type} (e : Except ε α) (f : α → β) (b : β) :
    e.map f = .ok b ↔ ∃ a, e = .ok a ∧ b = f a := by
  cases e <;> simp [Except.map, eq_comm]

theorem buildAux_ok_eq (t : FuncType) :
    ∀ (ps l : List Value) (i : Nat),
      buildFactoryCallArgumentsAux t i ps = .ok l → l = ps := by
  intro ps
  induction ps with
  | nil =>
    intro l i h
    unfold buildFactoryCallArgumentsAux at h
    exact (Except.ok.inj h).symm
  | cons a rest ih =>
    intro l i h
    unfold buildFactoryCallArgumentsAux at h
    by_cases hf : eagerArgFail t i a = true
    · rw [if_pos hf] at h
      exact absurd h (by simp)
    · rw [if_neg hf] at h
      rw [except_map_eq_ok] at h
      obtain ⟨l2, hl2, rfl⟩ := h
      rw [ih l2 (i + 1) hl2]

theorem buildAux_exists_ok_iff (t : FuncType) :
    ∀ (ps : List Value) (i : Nat),
      (∃ l, buildFactoryCallArgumentsAux t i ps = .ok l) ↔
        ∀ j, j < ps.length → eagerArgFail t (i + j) (ps.getD j .vnil) = false := by
  intro ps
  induction ps with
  | nil =>
    intro i
    simp [buildFactoryCallArgumentsAux]
  | cons a rest ih =>
    intro i
    unfold buildFactoryCallArgumentsAux
    by_cases hf : eagerArgFail t i a = true
    · apply iff_of_false
      · rintro ⟨l, hl⟩
        rw [if_pos hf] at hl
        exact absurd hl (by simp)
      · intro hall
        have h0 := hall 0 (by simp)
        rw [Nat.add_zero] at h0
        simp only [List.getD_cons_zero] at h0
        rw [h0] at hf
        exact Bool.false_ne_true hf
    · rw [if_neg hf]
      have hfa : eagerArgFail t i a = false := Bool.eq_false_iff.mpr hf
      constructor
      · rintro ⟨l, hl⟩
        rw [except_map_eq_ok] at hl
        obtain ⟨l2, hl2, rfl⟩ := hl
        intro j hj
        cases j with
        | zero => simpa using hfa
        | succ n =>
          have hm := (ih (i + 1)).mp ⟨l2, hl2⟩ n (by simpa using hj)
          have harith : i + 1 + n = i + (n + 1) := by omega
          rw [harith] at hm
          simpa using hm
      · intro hall
        have hrest : ∀ n, n < rest.length →
            eagerArgFail t (i + 1 + n) (rest.getD n .vnil) = false := by
          intro n hn
          have h := hall (n + 1) (by simpa using hn)
          have harith : i + (n + 1) = i + 1 + n := by omega
          rw [harith] at h
          simpa using h
        obtain ⟨l2, hl2⟩ := (ih (i + 1)).mpr hrest
        exact ⟨a :: l2, by rw [except_map_eq_ok]; exact ⟨l2, hl2, rfl⟩⟩

theorem build_ok_iff (t : FuncType) (ps : List Value) :
    (∃ l, buildFactoryCallArguments t ps = .ok l) ↔
      ∀ j, j < ps.length → eagerArgFail t j (ps.getD j .vnil) = false := by
  have h := buildAux_exists_ok_iff t ps 0
  simpa [buildFactoryCallArguments] using h

theorem newType_valid_iff (fname : String) (t : FuncType) (ps : List Value) :
    IsValid (NewType (.vfunc fname t) ps) = true ↔
      (t.NumOut = 1 ∧
        ((t.outTypes.getD 0 .strT).kind = .kInterface ∨
          (t.outTypes.getD 0 .strT).kind = .kPtr) ∧
        (t.variadic = true → t.NumIn ≤ ps.length) ∧
        (t.variadic = false → t.NumIn = ps.length) ∧
        ∀ j, j < ps.length → eagerArgFail t j (ps.getD j .vnil) = false) := by
  show IsValid (newTypeFromFactoryFunction fname t ps) = true ↔ _
  unfold newTypeFromFactoryFunction
  by_cases h1 : t.NumOut ≠ 1
  · rw [if_pos h1]
    apply iff_of_false (by simp [newInvalidType, IsValid])
    intro hr
    exact h1 hr.1
  rw [if_neg h1]
  by_cases h2 : (t.outTypes.getD 0 .strT).kind ≠ .kInterface ∧
      (t.outTypes.getD 0 .strT).kind ≠ .kPtr
  · rw [if_pos h2]
    apply iff_of_false (by simp [newInvalidType, IsValid])
    intro hr
    rcases hr.2.1 with hk | hk
    · exact h2.1 hk
    · exact h2.2 hk
  rw [if_neg h2]
  by_cases h3 : t.variadic = true ∧ ps.length < t.NumIn
  · rw [if_pos h3]
    apply iff_of_false (by simp [newInvalidType, IsValid])
    intro hr
    have hle := hr.2.2.1 h3.1
    have hlt := h3.2
    omega
  rw [if_neg h3]
  by_cases h4 : t.variadic = false ∧ t.NumIn ≠ ps.length
  · rw [if_pos h4]
    apply iff_of_false (by simp [newInvalidType, IsValid])
    intro hr
    exact h4.2 (hr.2.2.2.1 h4.1)
  rw [if_neg h4]
  constructor
  · intro hv
    refine ⟨by omega, ?_, ?_, ?_, ?_⟩
    · by_cases hk : (t.outTypes.getD 0 .strT).kind = .kInterface
      · exact Or.inl hk
      · right
        by_contra hp
        exact h2 ⟨hk, hp⟩
    · intro hvar
      by_contra hlt
      exact h3 ⟨hvar, by omega⟩
    · intro hvar
      by_contra hne
      exact h4 ⟨hvar, hne⟩
    · rw [← build_ok_iff]
      cases hb : buildFactoryCallArguments t ps with
      | error e =>
        rw [hb] at hv
        exact absurd hv (by simp [newInvalidType, IsValid])
      | ok l => exact ⟨l, rfl⟩
  · rintro ⟨-, -, -, -, hargs⟩
    obtain ⟨l, hl⟩ := (build_ok_iff t ps).mpr hargs
    rw [hl]
    rfl

theorem newType_mk_arguments (fname : String) (t : FuncType) (ps : List Value)
    (td : TypeFactoryData) (h0 : NewType (.vfunc fname t) ps = .mk td) :
    td.factoryArguments = ps := by
  have h : newTypeFromFactoryFunction fname t ps = .mk td := h0
  unfold newTypeFromFactoryFunction at h
  by_cases h1 : t.NumOut ≠ 1
  · rw [if_pos h1] at h
    exact absurd h (by simp [newInvalidType])
  rw [if_neg h1] at h
  by_cases h2 : (t.outTypes.getD 0 .strT).kind ≠ .kInterface ∧
      (t.outTypes.getD 0 .strT).kind ≠ .kPtr
  · rw [if_pos h2] at h
    exact absurd h (by simp [newInvalidType])
  rw [if_neg h2] at h
  by_cases h3 : t.variadic = true ∧ ps.length < t.NumIn
  · rw [if_pos h3] at h
    exact absurd h (by simp [newInvalidType])
  rw [if_neg h3] at h
  by_cases h4 : t.variadic = false ∧ t.NumIn ≠ ps.length
  · rw [if_pos h4] at h
    exact absurd h (by simp [newInvalidType])
  rw [if_neg h4] at h
  cases hb : buildFactoryCallArguments t ps with
  | error e =>
    rw [hb] at h
    exact absurd h (by simp [newInvalidType])
  | ok l =>
    rw [hb] at h
    have hl : l = ps := buildAux_ok_eq t ps l 0 hb
    cases h
    exact hl

theorem validate_isSome_iff (reg : List (String × TypeFactory)) :
    (validateNoInvalidTypes reg).isSome = true ↔ ∃ p ∈ reg, IsValid p.2 = false := by
  induction reg with
  | nil => simp [validateNoInvalidTypes]
  | cons x rest ih =>
    obtain ⟨id, f⟩ := x
    unfold validateNoInvalidTypes
    by_cases hf : IsValid f = false
    · rw [if_pos hf]
      simp only [Option.isSome_some, true_iff]
      exact ⟨(id, f), List.mem_cons_self _ _, hf⟩
    · rw [if_neg hf]
      rw [ih]
      constructor
      · rintro ⟨p, hp, hv⟩
        exact ⟨p, List.mem_cons_of_mem _ hp, hv⟩
      · rintro ⟨p, hp, hv⟩
        rcases List.mem_cons.mp hp with rfl | hp2
        · exact absurd hv hf
        · exact ⟨p, hp2, hv⟩

theorem validate_some_shape (reg : List (String × TypeFactory)) (s : String)
    (h : validateNoInvalidTypes reg = some s) :
    ∃ typeID e, (typeID, TypeFactory.invalidType e) ∈ reg ∧
      s = "type \"" ++ typeID ++ "\" is invalid: " ++ e := by
  induction reg with
  | nil => exact absurd h (by simp [validateNoInvalidTypes])
  | cons x rest ih =>
    obtain ⟨id, f⟩ := x
    unfold validateNoInvalidTypes at h
    by_cases hf : IsValid f = false
    · rw [if_pos hf] at h
      cases f with
      | mk d => exact absurd hf (by simp [IsValid])
      | invalidType e =>
        refine ⟨id, e, List.mem_cons_self _ _, ?_⟩
        exact (Option.some.inj h).symm
    · rw [if_neg hf] at h
      obtain ⟨tid, e, hm, hs⟩ := ih h
      exact ⟨tid, e, List.mem_cons_of_mem _ hm, hs⟩

theorem resolveFixedLoop_ok (t : TypeFactoryData) (r : Resolver) :
    ∀ (as vs : List Value) (i : Nat), ResolvesFrom t r i as vs →
      resolveFixedLoop t r i as = .ok vs := by
  intro as
  induction as with
  | nil =>
    intro vs i h
    cases vs with
    | nil => rfl
    | cons v vs => exact absurd h (by simp [ResolvesFrom])
  | cons a rest ih =>
    intro vs i h
    cases vs with
    | nil => exact absurd h (by simp [ResolvesFrom])
    | cons v vs =>
      obtain ⟨h1, h2⟩ := h
      unfold resolveFixedLoop
      rw [h1, ih vs (i + 1) h2]
      rfl

theorem resolveTailLoop_ok (t : TypeFactoryData) (r : Resolver) (e : TypeRepr)
    (as vs : List Value) (h : List.Forall₂ (fun a v => r a e = .ok v) as vs) :
    ∀ i, resolveTailLoop t r e i as = .ok vs := by
  induction h with
  | nil => intro i; rfl
  | cons ha _ ih =>
    intro i
    unfold resolveTailLoop
    rw [ha, ih (i + 1)]
    rfl

theorem resolveFixedLoop_err (t : TypeFactoryData) (r : Resolver)
    (typeID : String) (inst : Value) :
    ∀ (pre preRes : List Value) (i : Nat) (a : Value) (post : List Value),
      ResolvesFrom t r i pre preRes →
      r a (t.factoryType.In (i + pre.length)) = .error (.typeReferenceError typeID inst) →
      resolveFixedLoop t r i (pre ++ a :: post) =
        .error (invalidReferencedTypeErr t typeID inst (i + pre.length)) := by
  intro pre
  induction pre with
  | nil =>
    intro preRes i a post _ ha
    simp only [List.length_nil, Nat.add_zero] at ha ⊢
    simp only [List.nil_append]
    unfold resolveFixedLoop
    rw [ha]
  | cons p rest ih =>
    intro preRes i a post hres ha
    cases preRes with
    | nil => exact absurd hres (by simp [ResolvesFrom])
    | cons v vs =>
      obtain ⟨h1, h2⟩ := hres
      simp only [List.cons_append]
      unfold resolveFixedLoop
      rw [h1]
      have harith : i + (p :: rest).length = i + 1 + rest.length := by
        simp [List.length_cons]
        omega
      rw [harith] at ha ⊢
      rw [ih vs (i + 1) a post h2 ha]
      rfl

theorem data_append (a b : String) : (a ++ b).data = a.data ++ b.data := by
  cases a
  cases b
  rfl

theorem infix_append_right_str {l : List Char} (a : String) {b : String}
    (h : l <:+: b.data) : l <:+: (a ++ b).data := by
  obtain ⟨s, u, hsu⟩ := h
  refine ⟨a.data ++ s, u, ?_⟩
  rw [data_append, ← hsu]
  simp

theorem infix_append_left_str {l : List Char} {a : String} (b : String)
    (h : l <:+: a.data) : l <:+: (a ++ b).data := by
  obtain ⟨s, u, hsu⟩ := h
  refine ⟨s, u ++ b.data, ?_⟩
  rw [data_append, ← hsu]
  simp

theorem invalidReferencedTypeErr_names (t : TypeFactoryData) (typeID : String)
    (inst : Value) (i : Nat) :
    ("@" ++ typeID).data <:+: (invalidReferencedTypeErr t typeID inst i).data ∧
    (toString (i + 1)).data <:+: (invalidReferencedTypeErr t typeID inst i).data ∧
    (lastSlashPart t.fname).data <:+: (invalidReferencedTypeErr t typeID inst i).data := by
  unfold invalidReferencedTypeErr
  refine ⟨?_, ?_, ?_⟩
  · apply infix_append_left_str
    apply infix_append_left_str
    apply infix_append_left_str
    apply infix_append_left_str
    apply infix_append_left_str
    apply infix_append_left_str
    apply infix_append_left_str
    apply infix_append_left_str
    apply infix_append_left_str
    exact infix_append_right_str _ (List.infix_refl _)
  · apply infix_append_left_str
    apply infix_append_left_str
    apply infix_append_left_str
    apply infix_append_left_str
    apply infix_append_left_str
    exact infix_append_right_str _ (List.infix_refl _)
  · apply infix_append_left_str
    apply infix_append_left_str
    apply infix_append_left_str
    exact infix_append_right_str _ (List.infix_refl _)

theorem except_error_or_ok {ε α : Type} (x : Except ε α) :
    (∃ e, x = .error e) ↔ ¬∃ l, x = .ok l := by
  cases x <;> simp

theorem eagerArgFail_true_iff (t : FuncType) (j : Nat) (a : Value) :
    eagerArgFail t j a = true ↔
      ∃ s, a = .vstr s ∧ IsParameterOrTypeReference s = false ∧
        (Value.vstr s).kind ≠ (expectedArgType t j).kind := by
  unfold eagerArgFail
  cases a <;> simp [Bool.and_eq_true, decide_eq_true_eq, Bool.not_eq_true']
  · exact and_comm

theorem eagerArgFail_false_of (t : FuncType) (j : Nat) (a : Value)
    (h : ∀ s, a = .vstr s → IsParameterOrTypeReference s = true ∨
      (Value.vstr s).kind = (expectedArgType t j).kind) :
    eagerArgFail t j a = false := by
  rw [Bool.eq_false_iff]
  intro htrue
  obtain ⟨s, rfl, hp, hk⟩ := (eagerArgFail_true_iff t j a).mp htrue
  rcases h s rfl with hp2 | hk2
  · rw [hp] at hp2
    exact Bool.false_ne_true hp2
  · exact hk hk2

/-! The claims. -/

/-- C1 counterexample: bar.NewVariadic stands for a variadic constructor
with F = 1 fixed parameter (a logger) and a variadic string tail, so
NumIn = 2 counting the variadic slice. With k = 1 raw argument we have
k ≥ F, yet NewType rejects the registration with the at-least-NumIn arity
error, against the claim that construction accepts every k ≥ F. -/
theorem c1_counterexample :
    NewType (.vfunc "bar.NewVariadic"
        ⟨[.ptrTo "bar.Logger", .sliceOf .strT], [.ptrTo "bar.Baz"], true⟩)
      [.vstr "@logger"] =
      .invalidType
        "invalid number of input parameters for variadic function: got 1 but expected at least 2" := by
  decide

/-- C1 (amended): for a variadic constructor function passing the eager
return and argument checks, NewType accepts exactly the raw-argument
counts k ≥ NumIn — NumIn counting the variadic slice parameter, so
k ≥ F + 1 for F true fixed parameters — and rejects every k < NumIn
(in particular k = F). -/
theorem c1_variadic_arity (fname : String) (t : FuncType) (ps : List Value)
    (hv : t.variadic = true)
    (hout : t.NumOut = 1)
    (hk : (t.outTypes.getD 0 .strT).kind = .kInterface ∨
      (t.outTypes.getD 0 .strT).kind = .kPtr)
    (hargs : ∀ j, j < ps.length → eagerArgFail t j (ps.getD j .vnil) = false) :
    IsValid (NewType (.vfunc fname t) ps) = true ↔ t.NumIn ≤ ps.length := by
  rw [newType_valid_iff]
  constructor
  · intro h
    exact h.2.2.1 hv
  · intro h
    refine ⟨hout, hk, fun _ => h, ?_, hargs⟩
    intro hcontra
    rw [hv] at hcontra
    exact absurd hcontra (by decide)

/-- Witness for C1: the same variadic constructor with k = 3 ≥ NumIn = 2
raw arguments is accepted. -/
theorem c1_variadic_arity_witness :
    IsValid (NewType (.vfunc "bar.NewVariadic"
        ⟨[.ptrTo "bar.Logger", .sliceOf .strT], [.ptrTo "bar.Baz"], true⟩)
      [.vstr "@logger", .vstr "a", .vstr "b"]) = true ↔
      FuncType.NumIn ⟨[.ptrTo "bar.Logger", .sliceOf .strT], [.ptrTo "bar.Baz"], true⟩ ≤
        ([Value.vstr "@logger", Value.vstr "a", Value.vstr "b"]).length :=
  c1_variadic_arity "bar.NewVariadic"
    ⟨[.ptrTo "bar.Logger", .sliceOf .strT], [.ptrTo "bar.Baz"], true⟩
    [.vstr "@logger", .vstr "a", .vstr "b"] (by decide) (by decide) (by decide) (by decide)

/-- C2 counterexample: bar.NewQux declares a bool parameter; the raw
argument "hello" is a string literal that is no placeholder and no
reference, and NewType records a shape-mismatch construction error
immediately — the factory is invalid at construction, against the claim
that value-shape checks never happen at registration time. -/
theorem c2_counterexample :
    NewType (.vfunc "bar.NewQux" ⟨[.boolT], [.ptrTo "bar.Qux"], false⟩)
      [.vstr "hello"] =
      .invalidType "input argument 1 is of type string but needs to be a bool" := by
  decide

/-- C2 (amended): the only argument-value check NewType performs at
registration is the kind check on string literals that are neither
configuration parameters nor type references; whenever every raw argument
is a non-string value, a placeholder or reference string, or matches the
expected kind, the eager argument check passes and the factory is valid,
deferring any remaining value mismatch to resolution at Generate time. -/
theorem c2_lazy_value_checks (fname : String) (t : FuncType) (ps : List Value)
    (hout : t.NumOut = 1)
    (hk : (t.outTypes.getD 0 .strT).kind = .kInterface ∨
      (t.outTypes.getD 0 .strT).kind = .kPtr)
    (hvar : t.variadic = true → t.NumIn ≤ ps.length)
    (hnvar : t.variadic = false → t.NumIn = ps.length)
    (hstr : ∀ j, j < ps.length → ∀ s, ps.getD j .vnil = .vstr s →
      IsParameterOrTypeReference s = true ∨
        (Value.vstr s).kind = (expectedArgType t j).kind) :
    IsValid (NewType (.vfunc fname t) ps) = true := by
  rw [newType_valid_iff]
  refine ⟨hout, hk, hvar, hnvar, ?_⟩
  intro j hj
  exact eagerArgFail_false_of t j (ps.getD j .vnil) (hstr j hj)

/-- Witness for C2: an int parameter receiving the bool literal true — a
kind mismatch on a non-string literal — is accepted at construction. -/
theorem c2_lazy_value_checks_witness :
    IsValid (NewType (.vfunc "bar.NewBaz" ⟨[.intT], [.ptrTo "bar.Baz"], false⟩)
      [.vbool true]) = true :=
  c2_lazy_value_checks "bar.NewBaz" ⟨[.intT], [.ptrTo "bar.Baz"], false⟩ [.vbool true]
    (by decide) (by decide) (by decide) (by decide)
    (by
      intro j hj s hs
      have hj0 : j = 0 := by
        simp at hj
        omega
      subst hj0
      simp at hs)

/-- C3: the baseline validation constraint fails exactly when some
registered factory is invalid, and the error it returns names the
offending TypeID and embeds that factory's recorded construction
error. -/
theorem c3_validate_iff (reg : List (String × TypeFactory)) :
    ((validateNoInvalidTypes reg).isSome = true ↔ ∃ p ∈ reg, IsValid p.2 = false) ∧
    (∀ s, validateNoInvalidTypes reg = some s →
      ∃ typeID e, (typeID, TypeFactory.invalidType e) ∈ reg ∧
        s = "type \"" ++ typeID ++ "\" is invalid: " ++ e) :=
  ⟨validate_isSome_iff reg, fun s h => validate_some_shape reg s h⟩

/-- C4: for a variadic factory whose resolver succeeds on every stored
argument, Generate resolves the first NumIn - 1 arguments positionally,
resolves the trailing arguments against the variadic element shape, packs
the trailing results, in declaration order, into exactly one slice value
appended after the fixed results, and invokes the factory on that
argument list. -/
theorem c4_variadic_packing (t : TypeFactoryData) (r : Resolver)
    (fixedRes tailRes : List Value)
    (hv : t.factoryType.variadic = true)
    (hfix : ResolvesFrom t r 0 (t.factoryArguments.take (t.factoryType.NumIn - 1)) fixedRes)
    (htail : List.Forall₂ (fun a v =>
        r a ((t.factoryType.In (t.factoryType.NumIn - 1)).elem) = .ok v)
      (t.factoryArguments.drop (t.factoryType.NumIn - 1)) tailRes) :
    TypeFactory.Generate (.mk t) r =
      .ok (.vcall t.fname (Value.packSlice (fixedRes ++ [Value.packSlice tailRes]))) := by
  have hfl := resolveFixedLoop_ok t r (t.factoryArguments.take (t.factoryType.NumIn - 1))
    fixedRes 0 hfix
  have htl := resolveTailLoop_ok t r ((t.factoryType.In (t.factoryType.NumIn - 1)).elem)
    (t.factoryArguments.drop (t.factoryType.NumIn - 1)) tailRes htail 0
  unfold TypeFactory.Generate generateFactoryArguments generateVariadicFactoryArguments
  simp only [hv, if_true, hfl, htl]

/-- Witness for C4: a variadic factory with one fixed argument and a tail
of two ints under the identity resolver. -/
theorem c4_variadic_packing_witness :
    TypeFactory.Generate (.mk ⟨"bar.NewVariadic",
        ⟨[.strT, .sliceOf .intT], [.ptrTo "bar.Baz"], true⟩,
        [.vstr "fixed", .vint 1, .vint 2]⟩) (fun a _ => .ok a) =
      .ok (.vcall "bar.NewVariadic"
        (Value.packSlice ([Value.vstr "fixed"] ++
          [Value.packSlice [Value.vint 1, Value.vint 2]]))) :=
  c4_variadic_packing
    ⟨"bar.NewVariadic", ⟨[.strT, .sliceOf .intT], [.ptrTo "bar.Baz"], true⟩,
      [.vstr "fixed", .vint 1, .vint 2]⟩
    (fun a _ => .ok a) [Value.vstr "fixed"] [Value.vint 1, Value.vint 2]
    rfl ⟨rfl, trivial⟩ (.cons rfl (.cons rfl .nil))

/-- C5 counterexample: widgets.NewWidget is a function with one pointer
return and matching non-variadic arity, so none of the four invalidity
conditions of the claim holds, yet NewType records a construction error
for the kind-mismatched string literal — "otherwise a valid factory is
produced" fails on the code. -/
theorem c5_counterexample :
    NewType (.vfunc "widgets.NewWidget" ⟨[.intT], [.ptrTo "widgets.Widget"], false⟩)
      [.vstr "oops"] =
      .invalidType "input argument 1 is of type string but needs to be a int" := by
  decide

/-- C5 (amended): NewType yields a valid factory exactly when the input is
a function whose single return kind is interface or pointer, whose arity
check passes (exact count for non-variadic, at least NumIn for variadic),
and whose every raw argument passes the eager argument check — which can
also reject a non-reference string literal of mismatched kind; and an
invalid factory fails every Generate call with its recorded construction
error. -/
theorem c5_validity_characterisation (f : Value) (ps : List Value) :
    (IsValid (NewType f ps) = true ↔
      ∃ fname t, f = .vfunc fname t ∧ t.NumOut = 1 ∧
        ((t.outTypes.getD 0 .strT).kind = .kInterface ∨
          (t.outTypes.getD 0 .strT).kind = .kPtr) ∧
        (t.variadic = true → t.NumIn ≤ ps.length) ∧
        (t.variadic = false → t.NumIn = ps.length) ∧
        (∀ j, j < ps.length → eagerArgFail t j (ps.getD j .vnil) = false)) ∧
    (∀ e r, TypeFactory.Generate (.invalidType e) r = .error e) := by
  constructor
  · constructor
    · intro h
      cases f
      case vfunc fname t => exact ⟨fname, t, rfl, (newType_valid_iff fname t ps).mp h⟩
      all_goals exact absurd h (by simp [NewType, newInvalidType, IsValid])
    · rintro ⟨fname, t, rfl, h⟩
      exact (newType_valid_iff fname t ps).mpr h
  · intro e r
    rfl

/-- C6 (spec-modelled): the alias factory built for "foo::ReturnString"
fetches the instance registered under foo — a mock whose state is the
text "I was created by @foo" — and returns a callable closing over that
instance rather than the instance itself; invoking the callable with
"TEST" concatenates state and argument into "I was created by @foo
TEST". -/
theorem c6_alias_member_reference :
    (NewAliasType "foo::ReturnString").Generate
        (fun id => if id = "foo" then some (.vmock "I was created by @foo") else none) =
      .ok (.vbound (.vmock "I was created by @foo") "ReturnString") ∧
    invokeBound (.vbound (.vmock "I was created by @foo") "ReturnString") (.vstr "TEST") =
      some (.vstr "I was created by @foo TEST") :=
  ⟨by decide, by decide⟩

/-- C7: a factory built by NewType stores and reports its raw arguments
exactly as declared, in order and count; and an alias factory for target
id foo reports the single raw argument "@foo". -/
theorem c7_arguments_declaration_order (fname : String) (t : FuncType)
    (ps : List Value) (td : TypeFactoryData)
    (h : NewType (.vfunc fname t) ps = .mk td) :
    td.Arguments = ps ∧ (NewAliasType "foo").Arguments = [.vstr "@foo"] := by
  refine ⟨?_, by decide⟩
  unfold TypeFactoryData.Arguments
  exact newType_mk_arguments fname t ps td h

/-- Witness for C7: a one-argument factory reports exactly its declared
raw argument. -/
theorem c7_arguments_declaration_order_witness :
    TypeFactoryData.Arguments
        ⟨"bar.NewBaz", ⟨[.strT], [.ptrTo "bar.Baz"], false⟩, [.vstr "hi"]⟩ =
      [Value.vstr "hi"] ∧ (NewAliasType "foo").Arguments = [.vstr "@foo"] :=
  c7_arguments_declaration_order "bar.NewBaz" ⟨[.strT], [.ptrTo "bar.Baz"], false⟩
    [.vstr "hi"] ⟨"bar.NewBaz", ⟨[.strT], [.ptrTo "bar.Baz"], false⟩, [.vstr "hi"]⟩
    (by decide)

/-- C8 counterexample: a factory registered under the TypeID
main_controller whose only argument fails with a TypeReferenceError for
not_a_client. Generate returns exactly the enriched message — which names
the referenced id, the position and the trimmed constructor signature —
and that message nowhere contains the producing TypeID main_controller
(the factory never learns the id it was registered under). -/
theorem c8_counterexample :
    TypeFactory.Generate (.mk ⟨"github.com/fgrosse/servo/example.NewSimpleController",
        ⟨[.ifaceOf "http.Client"], [.ptrTo "example.SimpleController"], false⟩,
        [.vstr "@not_a_client"]⟩)
      (fun _ _ => .error (.typeReferenceError "not_a_client" .vnil)) =
      .error "the referenced type \"@not_a_client\" (type <nil>) can not be passed as argument 1 to the function signature example.NewSimpleController(http.Client)" ∧
    ¬ ("main_controller".data <:+:
      ("the referenced type \"@not_a_client\" (type <nil>) can not be passed as argument 1 to the function signature example.NewSimpleController(http.Client)").data) :=
  ⟨by decide, by decide⟩

/-- C8 (amended): when resolving the fixed raw argument at position i of a
non-variadic function factory fails with a TypeReferenceError, Generate
returns exactly the enriched error, whose text names the 1-based argument
position, the offending referenced TypeID behind an at sign, and the
trimmed constructor name with its signature — but the producing TypeID is
not part of it. -/
theorem c8_reference_error_content (t : TypeFactoryData) (r : Resolver)
    (pre preRes : List Value) (a : Value) (post : List Value)
    (typeID : String) (inst : Value)
    (hnv : t.factoryType.variadic = false)
    (hargs : t.factoryArguments = pre ++ a :: post)
    (hpre : ResolvesFrom t r 0 pre preRes)
    (ha : r a (t.factoryType.In pre.length) = .error (.typeReferenceError typeID inst)) :
    TypeFactory.Generate (.mk t) r =
      .error (invalidReferencedTypeErr t typeID inst pre.length) ∧
    ("@" ++ typeID).data <:+: (invalidReferencedTypeErr t typeID inst pre.length).data ∧
    (toString (pre.length + 1)).data <:+:
      (invalidReferencedTypeErr t typeID inst pre.length).data ∧
    (lastSlashPart t.fname).data <:+:
      (invalidReferencedTypeErr t typeID inst pre.length).data := by
  have hnames := invalidReferencedTypeErr_names t typeID inst pre.length
  refine ⟨?_, hnames.1, hnames.2.1, hnames.2.2⟩
  have herr := resolveFixedLoop_err t r typeID inst pre preRes 0 a post hpre
    (by simpa using ha)
  simp only [Nat.zero_add] at herr
  have hgen : generateFactoryArguments t r =
      .error (invalidReferencedTypeErr t typeID inst pre.length) := by
    unfold generateFactoryArguments
    simp only [hnv, Bool.false_eq_true, if_false]
    rw [hargs]
    exact herr
  unfold TypeFactory.Generate
  simp only [hgen]

/-- Witness for C8: a one-argument factory whose resolver always reports a
TypeReferenceError for the id dep. -/
theorem c8_reference_error_content_witness :
    TypeFactory.Generate (.mk ⟨"servo.NewCtrl", ⟨[.ifaceOf "C"], [.ptrTo "T"], false⟩,
        [.vstr "@dep"]⟩)
      (fun _ _ => .error (.typeReferenceError "dep" .vnil)) =
      .error (invalidReferencedTypeErr
        ⟨"servo.NewCtrl", ⟨[.ifaceOf "C"], [.ptrTo "T"], false⟩, [.vstr "@dep"]⟩
        "dep" .vnil 0) ∧
    ("@" ++ "dep").data <:+: (invalidReferencedTypeErr
      ⟨"servo.NewCtrl", ⟨[.ifaceOf "C"], [.ptrTo "T"], false⟩, [.vstr "@dep"]⟩
      "dep" .vnil 0).data ∧
    (toString (0 + 1)).data <:+: (invalidReferencedTypeErr
      ⟨"servo.NewCtrl", ⟨[.ifaceOf "C"], [.ptrTo "T"], false⟩, [.vstr "@dep"]⟩
      "dep" .vnil 0).data ∧
    (lastSlashPart "servo.NewCtrl").data <:+: (invalidReferencedTypeErr
      ⟨"servo.NewCtrl", ⟨[.ifaceOf "C"], [.ptrTo "T"], false⟩, [.vstr "@dep"]⟩
      "dep" .vnil 0).data :=
  c8_reference_error_content
    ⟨"servo.NewCtrl", ⟨[.ifaceOf "C"], [.ptrTo "T"], false⟩, [.vstr "@dep"]⟩
    (fun _ _ => .error (.typeReferenceError "dep" .vnil))
    [] [] (.vstr "@dep") [] "dep" .vnil rfl rfl trivial rfl

/-- C9 counterexample: a registry holding two invalid factories. Both
lists hold the same registry content (they are permutations, standing for
two iteration orders of the Go map), yet validation names TypeID a under
one order and TypeID b under the other — the named TypeID is not
independent of iteration order. -/
theorem c9_counterexample :
    List.Perm [("a", TypeFactory.invalidType "err a"), ("b", TypeFactory.invalidType "err b")]
      [("b", TypeFactory.invalidType "err b"), ("a", TypeFactory.invalidType "err a")] ∧
    validateNoInvalidTypes
        [("a", TypeFactory.invalidType "err a"), ("b", TypeFactory.invalidType "err b")] =
      some "type \"a\" is invalid: err a" ∧
    validateNoInvalidTypes
        [("b", TypeFactory.invalidType "err b"), ("a", TypeFactory.invalidType "err a")] =
      some "type \"b\" is invalid: err b" :=
  ⟨List.Perm.swap _ _ _, by decide, by decide⟩

/-- C9 (amended): for a fixed registry content the nil/non-nil outcome of
validation is deterministic — any two iteration orders of the same
registry agree on whether an error is returned (and, by c3_validate_iff,
any returned error names an offending TypeID of the registry); only the
choice among several offending TypeIDs can vary with the order. -/
theorem c9_outcome_deterministic (reg1 reg2 : List (String × TypeFactory))
    (h : List.Perm reg1 reg2) :
    (validateNoInvalidTypes reg1).isSome = (validateNoInvalidTypes reg2).isSome := by
  rw [Bool.eq_iff_iff, validate_isSome_iff, validate_isSome_iff]
  constructor
  · rintro ⟨p, hp, hv⟩
    exact ⟨p, (h.mem_iff).mp hp, hv⟩
  · rintro ⟨p, hp, hv⟩
    exact ⟨p, (h.mem_iff).mpr hp, hv⟩

/-- Witness for C9: one invalid and one valid entry, swapped. -/
theorem c9_outcome_deterministic_witness :
    (validateNoInvalidTypes [("x", TypeFactory.invalidType "boom"),
        ("y", TypeFactory.mk ⟨"pkg.New", ⟨[], [.ptrTo "pkg.T"], false⟩, []⟩)]).isSome =
      (validateNoInvalidTypes [("y", TypeFactory.mk ⟨"pkg.New", ⟨[], [.ptrTo "pkg.T"], false⟩, []⟩),
        ("x", TypeFactory.invalidType "boom")]).isSome :=
  c9_outcome_deterministic _ _ (List.Perm.swap _ _ _)

/-- C10: the eager argument check of NewType errors exactly when some raw
argument is a string literal that is neither a configuration parameter
nor a type reference and whose kind differs from the expected parameter
kind; on success the stored arguments are the raw parameters unchanged,
so every non-string literal of mismatched kind is accepted at
construction and any failure it causes is deferred to invocation time. -/
theorem c10_eager_check_scope (t : FuncType) (ps : List Value) :
    ((∃ e, buildFactoryCallArguments t ps = .error e) ↔
      ∃ j, j < ps.length ∧ ∃ s, ps.getD j .vnil = .vstr s ∧
        IsParameterOrTypeReference s = false ∧
        (Value.vstr s).kind ≠ (expectedArgType t j).kind) ∧
    (∀ l, buildFactoryCallArguments t ps = .ok l → l = ps) := by
  constructor
  · apply Iff.trans (except_error_or_ok _)
    rw [build_ok_iff]
    push_neg
    apply exists_congr
    intro j
    rw [and_congr_right_iff]
    intro _
    rw [Bool.ne_false_iff]
    exact eagerArgFail_true_iff t j _
  · exact fun l hl => buildAux_ok_eq t ps l 0 hl

end Goldi

